import Mathlib

/-!
Verification of the catsys repository core: the URL-shortener domain
specification (src/spec.ts), the generic command/event pipeline
(src/app/handlers-generic, src/app/handlers.ts) and the law verification
engine (src/law-enforcement.ts), shallowly embedded in Lean.
-/

namespace CatSys

/-- Left-reduction `fold(f, s0, events)` from src/spec.ts, line 4:
`events.reduce(f, s0)`. -/
def fold {S E : Type} (f : S → E → S) (s0 : S) (events : List E) : S :=
  events.foldl f s0

/-! ### URL-shortener domain objects (src/spec.ts) -/

/-- The `Event` union type of src/spec.ts. -/
inductive UEvent where
  | created (short long : String) (userId : Option String) (id timestamp : String)
  | customTaken (custom : String) (id timestamp : String)
  | expired (short : String) (id timestamp : String)
  | clicked (short : String) (id timestamp : String)
deriving DecidableEq, Repr

/-- JS records `Record<string, α>` are modelled as association lists in key
insertion order, matching `Object.entries` enumeration order. -/
def assocGet {α : Type} (r : List (String × α)) (k : String) : Option α :=
  (r.find? (fun p => p.1 == k)).map (fun p => p.2)

/-- The object spread update: overwrite in place when the key exists,
otherwise append (JS keeps the position of an existing key). -/
def assocSet {α : Type} (r : List (String × α)) (k : String) (v : α) :
    List (String × α) :=
  if r.any (fun p => p.1 == k) then
    r.map (fun p => if p.1 == k then (k, v) else p)
  else
    r ++ [(k, v)]

/-- The rest-destructuring removal of one key. -/
def assocRemove {α : Type} (r : List (String × α)) (k : String) :
    List (String × α) :=
  r.filter (fun p => p.1 != k)

/-- JS `Set<string>` modelled as a duplicate-free list in insertion order. -/
def setAdd (s : List String) (k : String) : List String :=
  if k ∈ s then s else s ++ [k]

def setRemove (s : List String) (k : String) : List String :=
  s.filter (fun x => x != k)

/-- The `State` type of src/spec.ts. -/
structure UState where
  version : Nat
  byShort : List (String × String)
  byLong : List (String × String)
  active : List String
deriving DecidableEq, Repr

/-- Initial state `s0` of src/spec.ts. -/
def us0 : UState := ⟨0, [], [], []⟩

/-- `evolve : (S, E) → S` of src/spec.ts. For an `Expired` event whose short
code is absent from `byShort`, the JS computed destructuring key coerces
`undefined` to the string literal written below, so that literal key is the
one removed from `byLong`. -/
def evolve (s : UState) (e : UEvent) : UState :=
  match e with
  | .created short long _ _ _ =>
    { s with
      version := s.version + 1
      byShort := assocSet s.byShort short long
      byLong := assocSet s.byLong long short
      active := setAdd s.active short }
  | .expired short _ _ =>
    { s with
      version := s.version + 1
      byShort := assocRemove s.byShort short
      byLong :=
        match assocGet s.byShort short with
        | some long => assocRemove s.byLong long
        | none => assocRemove s.byLong "undefined"
      active := setRemove s.active short }
  | _ => s

/-- The `View` type of src/spec.ts. -/
structure UView where
  lastUpdate : String
  clicks : List (String × Nat)
  topUrls : List (String × Nat)
  urls : List (String × String)
deriving DecidableEq, Repr

/-- Initial view `v0` of src/spec.ts; its `lastUpdate` is the construction
wall-clock instant, supplied here as a fixed constant. -/
def uv0 : UView := ⟨"1970-01-01T00:00:00.000Z", [], [], []⟩

/-- Stable descending insertion by click count, modelling the JS
`sort((a, b) => b.clicks - a.clicks)` comparator on entry lists. -/
def insertDesc (x : String × Nat) : List (String × Nat) → List (String × Nat)
  | [] => [x]
  | y :: ys => if y.2 < x.2 then x :: y :: ys else y :: insertDesc x ys

def sortByClicksDesc (l : List (String × Nat)) : List (String × Nat) :=
  l.foldr insertDesc []

/-- `Object.entries(clicks).map(..).sort(..).slice(0, 10)` of src/spec.ts. -/
def topOf (clicks : List (String × Nat)) : List (String × Nat) :=
  (sortByClicksDesc clicks).take 10

/-- `project : (V, E) → V` of src/spec.ts. -/
def project (v : UView) (e : UEvent) : UView :=
  match e with
  | .clicked short _ ts =>
    let newClicks := assocSet v.clicks short ((assocGet v.clicks short).getD 0 + 1)
    { v with lastUpdate := ts, clicks := newClicks, topUrls := topOf newClicks }
  | .created short long _ _ ts =>
    { v with
      lastUpdate := ts
      clicks := assocSet v.clicks short 0
      urls := assocSet v.urls short long }
  | .expired short _ ts =>
    let restClicks := assocRemove v.clicks short
    { v with
      lastUpdate := ts
      clicks := restClicks
      urls := assocRemove v.urls short
      topUrls := topOf restClicks }
  | _ => v

/-! ### Claims C2 and C10 -/

lemma fold_version_le (E : List UEvent) :
    ∀ s : UState, s.version ≤ (fold evolve s E).version := by
  induction E with
  | nil => intro s; simp [fold]
  | cons e es ih =>
    intro s
    have h1 : s.version ≤ (evolve s e).version := by
      cases e <;> simp [evolve]
    exact le_trans h1 (by simpa [fold] using ih (evolve s e))

/-- C2: the left fold over a concatenation agrees with folding the second
list from the result of folding the first, both for `evolve` (state replay)
and for `project` (view replay). -/
theorem fold_concat_evolve_project (s : UState) (v : UView)
    (xs ys : List UEvent) :
    fold evolve (fold evolve s xs) ys = fold evolve s (xs ++ ys) ∧
    fold project (fold project v xs) ys = fold project v (xs ++ ys) := by
  constructor <;> simp [fold, List.foldl_append]

/-- C10: the URL-shortener state version is monotone under `evolve`, hence
under any replay `fold evolve`. -/
theorem evolve_version_monotone :
    (∀ (s : UState) (e : UEvent), s.version ≤ (evolve s e).version) ∧
    (∀ (s : UState) (E : List UEvent), s.version ≤ (fold evolve s E).version) := by
  constructor
  · intro s e; cases e <;> simp [evolve]
  · intro s E; exact fold_version_le E s

/-! ### Generic command/event pipeline
(src/app/handlers-generic `createGenericHandler`, mirrored by
src/app/handlers.ts `makeHandle`). Effects run against explicit state:
a transactional SQL store, a keyed cache, an event bus and the
module-level seen-identifier set used by `dedupeBy`. -/

/-- JS string truthiness: only the empty string is falsy. -/
def jsTruthy (s : String) : Bool := s != ""

/-- The fields of the `DomainSpec` the generic handler consumes.
`commandId` embeds the `(c as any).id` access, `eventId` the `e.id` access
of `dedupeBy`, and `asCommand` the unchecked `domain as any as Command`
cast inside `httpHandle`. -/
structure PipelineSpec (Raw Domain Command Event State : Type) where
  normalize : Raw → Except String Domain
  asCommand : Domain → Command
  validate : Command → Bool
  decide : State → Command → List Event
  evolve : State → Event → State
  commandId : Command → Option String
  eventId : Event → Option String

/-- Which statements of the persist transaction the store fails on. -/
structure Faults where
  failInsertEvents : Bool
  failInsertOutbox : Bool
  failCommit : Bool
deriving DecidableEq, Repr

/-- Transactional store state: committed rows of the `events` and `outbox`
tables (one row per persisted batch) plus the uncommitted staging buffers
of an open transaction. -/
structure SqlState (Event : Type) where
  events : List (List Event)
  outbox : List (List Event)
  txnEvents : List (List Event)
  txnOutbox : List (List Event)
  inTxn : Bool

def sqlBegin {E : Type} (st : SqlState E) : SqlState E :=
  { st with inTxn := true }

def sqlRollback {E : Type} (st : SqlState E) : SqlState E :=
  { st with txnEvents := [], txnOutbox := [], inTxn := false }

def sqlCommit {E : Type} (st : SqlState E) : SqlState E :=
  { st with
    events := st.events ++ st.txnEvents
    outbox := st.outbox ++ st.txnOutbox
    txnEvents := [], txnOutbox := [], inTxn := false }

/-- `persistAndOutbox` of the generic handlers module: begin, insert the
batch into `events` and `outbox`, commit; on any failure inside the `try`,
roll back and rethrow (the Bool is false exactly when the error is
rethrown). -/
def persistAndOutbox {E : Type} (f : Faults) (st : SqlState E)
    (evts : List E) : SqlState E × Bool :=
  let st1 := sqlBegin st
  if f.failInsertEvents then (sqlRollback st1, false)
  else
    let st2 := { st1 with txnEvents := st1.txnEvents ++ [evts] }
    if f.failInsertOutbox then (sqlRollback st2, false)
    else
      let st3 := { st2 with txnOutbox := st2.txnOutbox ++ [evts] }
      if f.failCommit then (sqlRollback st3, false)
      else (sqlCommit st3, true)

/-- The observable effect world of one process: store, keyed cache entries
(key, value, ttl; newest first, so lookup sees the latest write), events
published on the bus, and the `globalThis.__seen` identifier set. -/
structure World (Event : Type) where
  sql : SqlState Event
  kv : List (String × String × Nat)
  published : List Event
  seen : List String

def kvGet (entries : List (String × String × Nat)) (k : String) :
    Option String :=
  (entries.find? (fun p => p.1 == k)).map (fun p => p.2.1)

def kvSet (entries : List (String × String × Nat)) (k v : String)
    (ttl : Nat) : List (String × String × Nat) :=
  (k, v, ttl) :: entries

/-- `if (seen) return s`: a hit requires a truthy cached value. -/
def cacheHit (entries : List (String × String × Nat)) (key : String) : Bool :=
  match kvGet entries key with
  | some v => jsTruthy v
  | none => false

/-- `const cmdId = (c as any).id || Math.random()...`: a missing or falsy
identifier falls back to a fresh random one, supplied as `freshId`. -/
def cmdIdOf (cid : Option String) (freshId : String) : String :=
  match cid with
  | some v => if jsTruthy v then v else freshId
  | none => freshId

/-- `dedupeBy(directPublish(bus))` applied to one event: an event without a
truthy id is always published; otherwise it is published only when its id
has not been seen, recording the id. -/
def publishOne {Event : Type} (eid : Event → Option String)
    (w : World Event) (e : Event) : World Event :=
  match eid e with
  | some i =>
    if jsTruthy i then
      if i ∈ w.seen then w
      else { w with seen := w.seen ++ [i], published := w.published ++ [e] }
    else { w with published := w.published ++ [e] }
  | none => { w with published := w.published ++ [e] }

def publishAll {Event : Type} (eid : Event → Option String)
    (w : World Event) (evts : List Event) : World Event :=
  evts.foldl (publishOne eid) w

inductive HandlerError where
  | invalidCommand
  | storage
deriving DecidableEq, Repr

/-- Rendering of a thrown handler error, as caught by `httpHandle`
(the JSON payload of the invalid command is abstracted). -/
def handlerErrorMessage : HandlerError → String
  | .invalidCommand => "Invalid command"
  | .storage => "storage error"

/-- `createGenericHandler(spec, deps).handle(s, c)`: validate, idempotency
lookup, decide (empty short-circuits), persist+outbox, mark processed,
publish with dedupe, fold evolve. `useKv` models whether `deps.kv` is
configured. The world is returned on every path, including throws. -/
def handle {Raw Domain Command Event State : Type}
    (spec : PipelineSpec Raw Domain Command Event State)
    (useKv : Bool) (faults : Faults) (freshId : String)
    (w : World Event) (s : State) (c : Command) :
    World Event × Except HandlerError State :=
  if !spec.validate c then
    (w, .error .invalidCommand)
  else
    let cmdId := cmdIdOf (spec.commandId c) freshId
    if useKv && cacheHit w.kv ("cmd:" ++ cmdId) then
      (w, .ok s)
    else
      let events := spec.decide s c
      if events.isEmpty then
        (w, .ok s)
      else
        match persistAndOutbox faults w.sql events with
        | (sql', false) => ({ w with sql := sql' }, .error .storage)
        | (sql', true) =>
          let w1 : World Event := { w with sql := sql' }
          let w2 :=
            if useKv then
              { w1 with kv := kvSet w1.kv ("cmd:" ++ cmdId) "1" 3600 }
            else w1
          let w3 := publishAll spec.eventId w2 events
          (w3, .ok (fold spec.evolve s events))

/-- The structured result of `httpHandle`. -/
structure HttpResult where
  success : Bool
  error : Option String
  status : Nat
deriving DecidableEq, Repr

/-- `createGenericHandler(spec, deps).httpHandle(s, raw)`: normalize, cast
to a command, run `handle`; every thrown error (normalization or handler)
is caught and turned into a status-400 result carrying the message, with
the input state returned unchanged. -/
def httpHandle {Raw Domain Command Event State : Type}
    (spec : PipelineSpec Raw Domain Command Event State)
    (useKv : Bool) (faults : Faults) (freshId : String)
    (w : World Event) (s : State) (raw : Raw) :
    World Event × State × HttpResult :=
  match spec.normalize raw with
  | .error msg => (w, s, ⟨false, some msg, 400⟩)
  | .ok d =>
    match handle spec useKv faults freshId w s (spec.asCommand d) with
    | (w', .ok s') => (w', s', ⟨true, none, 200⟩)
    | (w', .error err) => (w', s, ⟨false, some (handlerErrorMessage err), 400⟩)

/-! ### Pipeline lemmas and claim theorems -/

lemma persistAndOutbox_spec {E : Type} (f : Faults) (st : SqlState E)
    (evts : List E) (h1 : st.txnEvents = []) (h2 : st.txnOutbox = []) :
    persistAndOutbox f st evts =
      (⟨st.events ++ [evts], st.outbox ++ [evts], [], [], false⟩, true) ∨
    persistAndOutbox f st evts = (⟨st.events, st.outbox, [], [], false⟩, false) := by
  rcases f with ⟨fe, fo, fc⟩
  cases fe <;> cases fo <;> cases fc <;>
    simp [persistAndOutbox, sqlBegin, sqlRollback, sqlCommit, h1, h2]

lemma publishOne_frame {Event : Type} (eid : Event → Option String)
    (w : World Event) (e : Event) :
    (publishOne eid w e).sql = w.sql ∧ (publishOne eid w e).kv = w.kv := by
  unfold publishOne
  rcases eid e with _ | i
  · simp
  · by_cases ht : jsTruthy i = true
    · by_cases hm : i ∈ w.seen <;> simp [ht, hm]
    · simp [ht]

lemma publishAll_frame {Event : Type} (eid : Event → Option String)
    (evts : List Event) :
    ∀ w : World Event,
      (publishAll eid w evts).sql = w.sql ∧ (publishAll eid w evts).kv = w.kv := by
  induction evts with
  | nil => intro w; simp [publishAll]
  | cons e es ih =>
    intro w
    have h := publishOne_frame eid w e
    have h2 := ih (publishOne eid w e)
    simp only [publishAll, List.foldl_cons] at h2 ⊢
    exact ⟨h2.1.trans h.1, h2.2.trans h.2⟩

/-- C1: when the command validates and the idempotency cache does not hit,
a successful `handle` returns exactly `fold evolve` over `decide`; in
particular an empty decision short-circuits, returning the input state with
the world untouched. -/
theorem handle_returns_fold_evolve {Raw Domain Command Event State : Type}
    (spec : PipelineSpec Raw Domain Command Event State)
    (useKv : Bool) (faults : Faults) (freshId : String)
    (w : World Event) (s : State) (c : Command)
    (hv : spec.validate c = true)
    (hm : (useKv && cacheHit w.kv
      ("cmd:" ++ cmdIdOf (spec.commandId c) freshId)) = false) :
    (spec.decide s c = [] →
      handle spec useKv faults freshId w s c = (w, .ok s)) ∧
    (∀ r, (handle spec useKv faults freshId w s c).2 = .ok r →
      r = fold spec.evolve s (spec.decide s c)) := by
  constructor
  · intro hd
    simp [handle, hv, hm, hd]
  · intro r hr
    simp only [handle, hv, hm, Bool.not_true, Bool.false_eq_true, if_false] at hr
    by_cases hd : (spec.decide s c).isEmpty
    · rw [List.isEmpty_iff] at hd
      simp [hd, fold] at hr ⊢
      simp [hr.symm]
    · simp only [hd, Bool.false_eq_true, if_false] at hr
      rcases hp : persistAndOutbox faults w.sql (spec.decide s c) with ⟨sql', b⟩
      cases b <;> simp [hp] at hr
      exact hr.symm

def testSpec : PipelineSpec Unit Unit Unit Unit Nat where
  normalize := fun _ => .ok ()
  asCommand := fun _ => ()
  validate := fun _ => true
  decide := fun _ _ => [()]
  evolve := fun s _ => s + 1
  commandId := fun _ => some "c1"
  eventId := fun _ => none

def sqlEmpty : SqlState Unit := ⟨[], [], [], [], false⟩

def wEmpty : World Unit := ⟨sqlEmpty, [], [], []⟩

def noFaults : Faults := ⟨false, false, false⟩

theorem handle_returns_fold_evolve_witness :
    (testSpec.validate () = true) ∧
    ((true && cacheHit wEmpty.kv
      ("cmd:" ++ cmdIdOf (testSpec.commandId ()) "f")) = false) ∧
    ((testSpec.decide 0 () = [] →
        handle testSpec true noFaults "f" wEmpty 0 () = (wEmpty, .ok 0)) ∧
     (∀ r, (handle testSpec true noFaults "f" wEmpty 0 ()).2 = .ok r →
        r = fold testSpec.evolve 0 (testSpec.decide 0 ()))) :=
  ⟨rfl, rfl,
   handle_returns_fold_evolve testSpec true noFaults "f" wEmpty 0 () rfl rfl⟩

/-- C6: a command that fails `validate` makes `handle` throw the
invalid-command error with the world completely untouched: no store query,
no cache read or write, no bus publish. -/
theorem handle_invalid_command_no_effects
    {Raw Domain Command Event State : Type}
    (spec : PipelineSpec Raw Domain Command Event State)
    (useKv : Bool) (faults : Faults) (freshId : String)
    (w : World Event) (s : State) (c : Command)
    (hv : spec.validate c = false) :
    handle spec useKv faults freshId w s c = (w, .error .invalidCommand) := by
  simp [handle, hv]

def rejectSpec : PipelineSpec Unit Unit Unit Unit Nat :=
  { testSpec with validate := fun _ => false }

theorem handle_invalid_command_no_effects_witness :
    (rejectSpec.validate () = false) ∧
    handle rejectSpec true noFaults "f" wEmpty 0 () =
      (wEmpty, .error .invalidCommand) :=
  ⟨rfl, handle_invalid_command_no_effects rejectSpec true noFaults "f"
    wEmpty 0 () rfl⟩

/-- C9: a configured idempotency cache that hits on the command identifier
short-circuits `handle`, returning the input state with no effect at all;
an empty decision never writes the cache key; and no error path (including
a failed persist) ever writes the cache key. -/
theorem idempotency_hit_and_cache_write_frame
    {Raw Domain Command Event State : Type}
    (spec : PipelineSpec Raw Domain Command Event State)
    (faults : Faults) (freshId : String)
    (w : World Event) (s : State) (c : Command) (cid v : String) :
    (spec.validate c = true → spec.commandId c = some cid →
     jsTruthy cid = true → kvGet w.kv ("cmd:" ++ cid) = some v →
     jsTruthy v = true →
     handle spec true faults freshId w s c = (w, .ok s)) ∧
    (∀ useKv, spec.decide s c = [] →
      (handle spec useKv faults freshId w s c).1.kv = w.kv) ∧
    (∀ useKv e, (handle spec useKv faults freshId w s c).2 = .error e →
      (handle spec useKv faults freshId w s c).1.kv = w.kv) := by
  refine ⟨?_, ?_, ?_⟩
  · intro hv hcid htr hkv htv
    have hhit : cacheHit w.kv
        ("cmd:" ++ cmdIdOf (spec.commandId c) freshId) = true := by
      simp [cmdIdOf, hcid, htr, cacheHit, hkv, htv]
    simp [handle, hv, hhit]
  · intro useKv hd
    by_cases hv : spec.validate c
    · by_cases hh : (useKv && cacheHit w.kv
        ("cmd:" ++ cmdIdOf (spec.commandId c) freshId)) = true
      · simp [handle, hv, hh]
      · simp [handle, hv, hh, hd]
    · simp [handle, hv]
  · intro useKv e he
    by_cases hv : spec.validate c
    · by_cases hh : (useKv && cacheHit w.kv
        ("cmd:" ++ cmdIdOf (spec.commandId c) freshId)) = true
      · simp [handle, hv, hh]
      · by_cases hd : (spec.decide s c).isEmpty
        · simp [handle, hv, hh, hd]
        · simp only [handle, hv, hh, hd, Bool.not_true, Bool.false_eq_true,
            if_false, if_true] at he ⊢
          rcases hp : persistAndOutbox faults w.sql (spec.decide s c)
            with ⟨sql', b⟩
          cases b
          · simp [hp]
          · simp [hp] at he
    · simp [handle, hv]

def noopSpec : PipelineSpec Unit Unit Unit Unit Nat :=
  { testSpec with decide := fun _ _ => [] }

def allFailFaults : Faults := ⟨true, false, false⟩

def wHit : World Unit := ⟨sqlEmpty, [("cmd:c1", "1", 3600)], [], []⟩

theorem idempotency_hit_and_cache_write_frame_witness :
    (handle testSpec true noFaults "f" wHit 0 () = (wHit, .ok 0)) ∧
    ((handle noopSpec true noFaults "f" wEmpty 0 ()).1.kv = wEmpty.kv) ∧
    ((handle testSpec true allFailFaults "f" wEmpty 0 ()).1.kv = wEmpty.kv) :=
  ⟨(idempotency_hit_and_cache_write_frame testSpec noFaults "f" wHit 0 ()
      "c1" "1").1 rfl rfl rfl rfl rfl,
   (idempotency_hit_and_cache_write_frame noopSpec noFaults "f" wEmpty 0 ()
      "c1" "1").2.1 true rfl,
   (idempotency_hit_and_cache_write_frame testSpec allFailFaults "f" wEmpty
      0 () "c1" "1").2.2 true .storage rfl⟩

/-- C8: the persist+outbox transaction either commits both rows and leaves
no transaction open, or rolls back completely, leaving the committed tables
exactly as before; a storage failure inside `handle` publishes nothing and
leaves no partial commit; and whenever `handle` publishes anything, the
whole batch was already committed to both tables. -/
theorem persist_commit_before_publish_and_rollback
    {Raw Domain Command Event State : Type}
    (spec : PipelineSpec Raw Domain Command Event State)
    (useKv : Bool) (faults : Faults) (freshId : String)
    (w : World Event) (s : State) (c : Command)
    (sql : SqlState Event) (evts : List Event)
    (hs1 : sql.txnEvents = []) (hs2 : sql.txnOutbox = [])
    (hw1 : w.sql.txnEvents = []) (hw2 : w.sql.txnOutbox = []) :
    (persistAndOutbox faults sql evts =
        (⟨sql.events ++ [evts], sql.outbox ++ [evts], [], [], false⟩, true) ∨
     persistAndOutbox faults sql evts =
        (⟨sql.events, sql.outbox, [], [], false⟩, false)) ∧
    ((handle spec useKv faults freshId w s c).2 = .error .storage →
      (handle spec useKv faults freshId w s c).1.published = w.published ∧
      (handle spec useKv faults freshId w s c).1.sql.events = w.sql.events ∧
      (handle spec useKv faults freshId w s c).1.sql.outbox = w.sql.outbox ∧
      (handle spec useKv faults freshId w s c).1.sql.inTxn = false) ∧
    ((handle spec useKv faults freshId w s c).1.published ≠ w.published →
      (handle spec useKv faults freshId w s c).1.sql.events =
        w.sql.events ++ [spec.decide s c] ∧
      (handle spec useKv faults freshId w s c).1.sql.outbox =
        w.sql.outbox ++ [spec.decide s c] ∧
      (handle spec useKv faults freshId w s c).1.sql.inTxn = false) := by
  refine ⟨persistAndOutbox_spec faults sql evts hs1 hs2, ?_, ?_⟩
  · intro he
    by_cases hv : spec.validate c
    · by_cases hh : (useKv && cacheHit w.kv
        ("cmd:" ++ cmdIdOf (spec.commandId c) freshId)) = true
      · simp [handle, hv, hh] at he
      · by_cases hd : (spec.decide s c).isEmpty
        · simp [handle, hv, hh, hd] at he
        · simp only [handle, hv, hh, hd, Bool.not_true, Bool.false_eq_true,
            if_false, if_true] at he ⊢
          rcases hp : persistAndOutbox faults w.sql (spec.decide s c)
            with ⟨sql', b⟩
          cases b
          · have hdisj := persistAndOutbox_spec faults w.sql (spec.decide s c)
              hw1 hw2
            rcases hdisj with h | h
            · rw [hp] at h; simp at h
            · rw [hp] at h
              have hsql : sql' = ⟨w.sql.events, w.sql.outbox, [], [], false⟩ :=
                congrArg Prod.fst h
              simp [hp, hsql]
          · simp [hp] at he
    · simp [handle, hv] at he
  · intro hne
    by_cases hv : spec.validate c
    · by_cases hh : (useKv && cacheHit w.kv
        ("cmd:" ++ cmdIdOf (spec.commandId c) freshId)) = true
      · simp [handle, hv, hh] at hne
      · by_cases hd : (spec.decide s c).isEmpty
        · simp [handle, hv, hh, hd] at hne
        · simp only [handle, hv, hh, hd, Bool.not_true, Bool.false_eq_true,
            if_false, if_true] at hne ⊢
          rcases hp : persistAndOutbox faults w.sql (spec.decide s c)
            with ⟨sql', b⟩
          cases b
          · simp [hp] at hne
          · have hdisj := persistAndOutbox_spec faults w.sql
              (spec.decide s c) hw1 hw2
            rcases hdisj with h | h
            · rw [hp] at h
              have hsql : sql' = ⟨w.sql.events ++ [spec.decide s c],
                  w.sql.outbox ++ [spec.decide s c], [], [], false⟩ :=
                congrArg Prod.fst h
              have hframe := publishAll_frame spec.eventId (spec.decide s c)
              simp only [hp]
              constructor
              · rw [(hframe _).1]
                split <;> simp [hsql]
              constructor
              · rw [(hframe _).1]
                split <;> simp [hsql]
              · rw [(hframe _).1]
                split <;> simp [hsql]
            · rw [hp] at h; simp at h
    · simp [handle, hv] at hne

theorem persist_commit_before_publish_and_rollback_witness :
    ((handle testSpec true allFailFaults "f" wEmpty 0 ()).1.published =
        wEmpty.published ∧
     (handle testSpec true allFailFaults "f" wEmpty 0 ()).1.sql.events =
        wEmpty.sql.events ∧
     (handle testSpec true allFailFaults "f" wEmpty 0 ()).1.sql.outbox =
        wEmpty.sql.outbox ∧
     (handle testSpec true allFailFaults "f" wEmpty 0 ()).1.sql.inTxn = false) ∧
    ((handle testSpec true noFaults "f" wEmpty 0 ()).1.sql.events =
        wEmpty.sql.events ++ [testSpec.decide 0 ()] ∧
     (handle testSpec true noFaults "f" wEmpty 0 ()).1.sql.outbox =
        wEmpty.sql.outbox ++ [testSpec.decide 0 ()] ∧
     (handle testSpec true noFaults "f" wEmpty 0 ()).1.sql.inTxn = false) :=
  ⟨(persist_commit_before_publish_and_rollback testSpec true allFailFaults
      "f" wEmpty 0 () sqlEmpty [()] rfl rfl rfl rfl).2.1 rfl,
   (persist_commit_before_publish_and_rollback testSpec true noFaults
      "f" wEmpty 0 () sqlEmpty [()] rfl rfl rfl rfl).2.2 (by decide)⟩

/-- C7: `httpHandle` always returns a structured state/result pair: either
a 200 success, or a 400 failure that returns the input state, carries the
error message and sets `success := false`; and a normalization failure is
reported as exactly that 400 result with the world untouched. -/
theorem httpHandle_total_and_normalize_failure
    {Raw Domain Command Event State : Type}
    (spec : PipelineSpec Raw Domain Command Event State)
    (useKv : Bool) (faults : Faults) (freshId : String)
    (w : World Event) (s : State) (raw : Raw) :
    ((httpHandle spec useKv faults freshId w s raw).2.2.status = 200 ∨
     ((httpHandle spec useKv faults freshId w s raw).2.2.status = 400 ∧
      (httpHandle spec useKv faults freshId w s raw).2.1 = s ∧
      (httpHandle spec useKv faults freshId w s raw).2.2.success = false ∧
      (httpHandle spec useKv faults freshId w s raw).2.2.error ≠ none)) ∧
    (∀ m, spec.normalize raw = .error m →
      httpHandle spec useKv faults freshId w s raw =
        (w, s, ⟨false, some m, 400⟩)) := by
  constructor
  · unfold httpHandle
    rcases hn : spec.normalize raw with m | d
    · simp
    · rcases hh : handle spec useKv faults freshId w s (spec.asCommand d)
        with ⟨w', r⟩
      cases r <;> simp [hh]
  · intro m hm
    simp [httpHandle, hm]

def failNormSpec : PipelineSpec Unit Unit Unit Unit Nat :=
  { testSpec with normalize := fun _ => .error "Invalid URL" }

theorem httpHandle_total_and_normalize_failure_witness :
    (failNormSpec.normalize () = .error "Invalid URL") ∧
    httpHandle failNormSpec true noFaults "f" wEmpty 0 () =
      (wEmpty, 0, ⟨false, some "Invalid URL", 400⟩) :=
  ⟨rfl, (httpHandle_total_and_normalize_failure failNormSpec true noFaults
    "f" wEmpty 0 ()).2 "Invalid URL" rfl⟩

/-! ### Law verification engine (src/law-enforcement.ts)

JS domain functions may be impure (wall clock, randomness); each embedded
function therefore takes the index of the call as an extra first argument,
threaded in program order through the whole verification run. A pure
function is one that ignores that index. -/

/-- `LawVerificationResult` of src/law-enforcement.ts. -/
structure LawResult where
  law : String
  passed : Bool
  error : Option String
  description : String
deriving DecidableEq, Repr

/-- `LawVerificationSuite` of src/law-enforcement.ts. -/
structure LawSuite where
  allPassed : Bool
  results : List LawResult
  passedCount : Nat
  totalCount : Nat
deriving DecidableEq, Repr

/-- The `DomainLaws` interface. Functions carry the call-index argument.
The sample lists are the values the fast-check generators produce for each
property run; `jsonState` and `jsonView` embed `JSON.stringify` at the two
types; `withTestId` embeds the object spread adding `id: test_i` in the
idempotence check. -/
structure DomainLaws (Raw Domain Command Event State View Answer : Type) where
  normalize : Nat → Raw → Domain
  validate : Nat → Command → Bool
  decide : Nat → State → Command → List Event
  evolve : Nat → State → Event → State
  project : Nat → View → Event → View
  queries : Nat → View → Answer
  deriveView : Nat → State → Answer
  initialState : State
  initialView : View
  puritySamples : List (List Event)
  cqrsSamples : List (List Event)
  replaySamples : List (List Event × List Event)
  idemSamples : List (List Event)
  jsonState : State → String
  jsonView : View → String
  withTestId : Nat → Event → Event

/-- `fold` over a call-indexed function: each application consumes one call
index. -/
def foldTick {S E : Type} (f : Nat → S → E → S) : S × Nat → List E → S × Nat
  | st, [] => st
  | (s, t), e :: es => foldTick f (f t s e, t + 1) es

/-- `fc.assert(fc.property(gen, prop))`: the property is evaluated on each
drawn sample in order and the assertion throws on the first falsifying
sample (shrinking is abstracted away; it does not change pass/fail). -/
def runTrials {α : Type} (prop : Nat → α → Bool × Nat) :
    Nat → List α → Bool × Nat
  | t, [] => (true, t)
  | t, x :: xs =>
    let r := prop t x
    if r.1 then runTrials prop r.2 xs else (false, r.2)

section LawEngine

variable {Raw Domain Command Event State View Answer : Type}

/-- The Law 1 property body: fold `evolve` twice from `initialState`, fold
`project` twice from `initialView`, compare the JSON serializations. -/
def purityProp (L : DomainLaws Raw Domain Command Event State View Answer)
    (t : Nat) (E : List Event) : Bool × Nat :=
  let p1 := foldTick L.evolve (L.initialState, t) E
  let p2 := foldTick L.evolve (L.initialState, p1.2) E
  let q1 := foldTick L.project (L.initialView, p2.2) E
  let q2 := foldTick L.project (L.initialView, q1.2) E
  ((L.jsonState p1.1 == L.jsonState p2.1) &&
    (L.jsonView q1.1 == L.jsonView q2.1), q2.2)

def verifyPurity (L : DomainLaws Raw Domain Command Event State View Answer)
    (t : Nat) : LawResult × Nat :=
  let r := runTrials (purityProp L) t (L.puritySamples.take 100)
  if r.1 then
    (⟨"1. Purity", true, none,
      "All functions are deterministic (same input → same output)"⟩, r.2)
  else
    (⟨"1. Purity", false, some "Property failed",
      "Functions must be deterministic"⟩, r.2)

/-- Law 2 computes a fold over an empty event list (no call is made) and
reports success unconditionally (`passed: true, // Simplified
verification`). -/
def verifyFunctoriality
    (_L : DomainLaws Raw Domain Command Event State View Answer)
    (t : Nat) : LawResult × Nat :=
  (⟨"2. Functoriality (R)", true, none,
    "R functor preserves composition: R(g∘f) = R(g)∘R(f)"⟩, t)

/-- Law 3 builds a trivial metrics mock and reports success
unconditionally. -/
def verifyObservabilityNaturality
    (_L : DomainLaws Raw Domain Command Event State View Answer)
    (t : Nat) : LawResult × Nat :=
  (⟨"3. Observability Naturality (O)", true, none,
    "Observability composes: O(g∘f) = O(g)∘O(f)"⟩, t)

/-- In JS, `typeof` of any object value is the same tag; the Law 4 body
compares `typeof answersFromView === typeof answersFromState`, which is a
comparison of two object tags. -/
def jsTypeOf {α : Type} (_ : α) : String := "object"

def cqrsProp (L : DomainLaws Raw Domain Command Event State View Answer)
    (t : Nat) (E : List Event) : Bool × Nat :=
  let p := foldTick L.evolve (L.initialState, t) E
  let q := foldTick L.project (L.initialView, p.2) E
  let a1 := L.queries q.2 q.1
  let a2 := L.deriveView (q.2 + 1) p.1
  (jsTypeOf a1 == jsTypeOf a2, q.2 + 2)

def verifyCQRSCommutativity
    (L : DomainLaws Raw Domain Command Event State View Answer)
    (t : Nat) : LawResult × Nat :=
  let r := runTrials (cqrsProp L) t (L.cqrsSamples.take 50)
  if r.1 then
    (⟨"4. CQRS Commutativity", true, none,
      "Read model queries equal derived view queries: queries(project*) = deriveView(evolve*)"⟩, r.2)
  else
    (⟨"4. CQRS Commutativity", false, some "Property failed",
      "CQRS consistency must hold"⟩, r.2)

/-- Law 5 launches the asynchronous infrastructure test and discards its
promise, reporting success unconditionally (`passed: true, // Actual test
runs asynchronously`). -/
def verifyOutboxCommutativity
    (_L : DomainLaws Raw Domain Command Event State View Answer)
    (t : Nat) : LawResult × Nat :=
  (⟨"5. Outbox Commutativity", true, none,
    "Transactional outbox ensures exactly-once delivery (verified with real infrastructure)"⟩, t)

/-- Law 6: same unconditional success as Law 5. -/
def verifyPushPullEquivalence
    (_L : DomainLaws Raw Domain Command Event State View Answer)
    (t : Nat) : LawResult × Nat :=
  (⟨"6. Push/Pull Equivalence", true, none,
    "Push and pull eventually converge to same state (verified with WebSocket vs HTTP)"⟩, t)

def replayProp (L : DomainLaws Raw Domain Command Event State View Answer)
    (t : Nat) (p : List Event × List Event) : Bool × Nat :=
  let inner := foldTick L.evolve (L.initialState, t) p.1
  let lhs := foldTick L.evolve (inner.1, inner.2) p.2
  let rhs := foldTick L.evolve (L.initialState, lhs.2) (p.1 ++ p.2)
  (L.jsonState lhs.1 == L.jsonState rhs.1, rhs.2)

def verifyReplayDeterminism
    (L : DomainLaws Raw Domain Command Event State View Answer)
    (t : Nat) : LawResult × Nat :=
  let r := runTrials (replayProp L) t (L.replaySamples.take 50)
  if r.1 then
    (⟨"7. Replay Determinism", true, none,
      "Fold associativity: fold(f, fold(f, s, xs), ys) = fold(f, s, xs++ys)"⟩, r.2)
  else
    (⟨"7. Replay Determinism", false, some "Property failed",
      "Replay must be deterministic and associative"⟩, r.2)

/-- The Law 8 property folds `evolve` over the id-stamped events and then
returns `true` unconditionally; the infrastructure half is asynchronous and
discarded. -/
def idemProp (L : DomainLaws Raw Domain Command Event State View Answer)
    (t : Nat) (E : List Event) : Bool × Nat :=
  let withIds := E.enum.map (fun p => L.withTestId p.1 p.2)
  let q := foldTick L.evolve (L.initialState, t) withIds
  (true, q.2)

def verifyIdempotence
    (L : DomainLaws Raw Domain Command Event State View Answer)
    (t : Nat) : LawResult × Nat :=
  let r := runTrials (idemProp L) t (L.idemSamples.take 10)
  if r.1 then
    (⟨"8. Idempotence", true, none,
      "Duplicate operations with same ID are ignored (verified at Spec and Infrastructure levels)"⟩, r.2)
  else
    (⟨"8. Idempotence", false, some "Property failed",
      "Operations must be idempotent by ID"⟩, r.2)

/-- Law 9: unconditional success, asynchronous test discarded. -/
def verifyCausalityOrdering
    (_L : DomainLaws Raw Domain Command Event State View Answer)
    (t : Nat) : LawResult × Nat :=
  (⟨"9. Causality/Ordering", true, none,
    "Causal ordering is preserved within aggregates (verified with state transitions)"⟩, t)

/-- Law 10 is a stub: it returns success without touching the domain
(`passed: true, // Would need actual aggregation testing`). -/
def verifyMonoidalAggregation
    (_L : DomainLaws Raw Domain Command Event State View Answer)
    (t : Nat) : LawResult × Nat :=
  (⟨"10. Monoidal Aggregation", true, none,
    "Aggregations are associative and have identity"⟩, t)

/-- Law 11 is a stub identical in shape to Law 10. -/
def verifyPullbackCorrectness
    (_L : DomainLaws Raw Domain Command Event State View Answer)
    (t : Nat) : LawResult × Nat :=
  (⟨"11. Pullback Correctness", true, none,
    "Joins return exactly key-matching pairs"⟩, t)

/-- Law 12 is a stub identical in shape to Law 10. -/
def verifyPushoutSchemaEvolution
    (_L : DomainLaws Raw Domain Command Event State View Answer)
    (t : Nat) : LawResult × Nat :=
  (⟨"12. Pushout Schema Evolution", true, none,
    "Schema evolution preserves old consumer behavior"⟩, t)

/-- `verifyAllLaws`: run all twelve checks in order, collect every result,
count the passes en bloc. -/
def verifyAllLaws (L : DomainLaws Raw Domain Command Event State View Answer)
    (t : Nat) : LawSuite :=
  let p1 := verifyPurity L t
  let p2 := verifyFunctoriality L p1.2
  let p3 := verifyObservabilityNaturality L p2.2
  let p4 := verifyCQRSCommutativity L p3.2
  let p5 := verifyOutboxCommutativity L p4.2
  let p6 := verifyPushPullEquivalence L p5.2
  let p7 := verifyReplayDeterminism L p6.2
  let p8 := verifyIdempotence L p7.2
  let p9 := verifyCausalityOrdering L p8.2
  let p10 := verifyMonoidalAggregation L p9.2
  let p11 := verifyPullbackCorrectness L p10.2
  let p12 := verifyPushoutSchemaEvolution L p11.2
  let results := [p1.1, p2.1, p3.1, p4.1, p5.1, p6.1,
                  p7.1, p8.1, p9.1, p10.1, p11.1, p12.1]
  let passedCount := (results.filter (fun r => r.passed)).length
  { allPassed := passedCount == results.length
    results := results
    passedCount := passedCount
    totalCount := results.length }

/-- One line of the aggregated failure report:
`❌ law: description` plus the optional error detail. -/
def formatFailedLaw (r : LawResult) : String :=
  "❌ " ++ r.law ++ ": " ++ r.description ++
    (match r.error with
     | some e => "\n   Error: " ++ e
     | none => "")

/-- `Array.prototype.join` with a newline separator. -/
def joinLines : List String → String
  | [] => ""
  | [x] => x
  | x :: y :: xs => x ++ "\n" ++ joinLines (y :: xs)

/-- The thrown error message template of `enforceLaws`. -/
def lawViolationMessage (failed : List LawResult)
    (passedCount totalCount : Nat) : String :=
  "\n🚨 CATEGORY THEORY LAW VIOLATIONS DETECTED 🚨\n\n" ++
  toString failed.length ++ " of 12 laws failed verification:\n\n" ++
  joinLines (failed.map formatFailedLaw) ++
  "\n\nMathematical guarantees cannot be provided. Please fix the violations before using this domain specification.\n\nPassed: " ++
  toString passedCount ++ "/" ++ toString totalCount ++ " laws\n"

/-- `enforceLaws`: throw the aggregated message when any law failed,
return normally otherwise. -/
def enforceLaws (L : DomainLaws Raw Domain Command Event State View Answer)
    (t : Nat) : Except String Unit :=
  let suite := verifyAllLaws L t
  if suite.allPassed then .ok ()
  else
    .error (lawViolationMessage (suite.results.filter (fun r => !r.passed))
      suite.passedCount suite.totalCount)

end LawEngine

/-! ### Lemmas about the engine and claim theorems C3, C4, C5 -/

lemma filter_length_eq_iff {α : Type} (p : α → Bool) (l : List α) :
    (l.filter p).length = l.length ↔ ∀ x ∈ l, p x = true := by
  induction l with
  | nil => simp
  | cons a as ih =>
    by_cases hp : p a
    · simp [List.filter_cons, hp, ih]
    · have hle := List.length_filter_le p as
      simp only [List.filter_cons, hp, Bool.false_eq_true, if_false,
        List.length_cons, List.mem_cons]
      constructor
      · intro h; omega
      · intro h
        exact absurd (h a (Or.inl rfl)) (by simpa using hp)

/-- To show that one string occurs inside another it is enough to name the
material before and after it. -/
lemma str_infix_of (b a pre post : String)
    (h : a.data = pre.data ++ b.data ++ post.data) : b.data <:+: a.data :=
  ⟨pre.data, post.data, h.symm⟩

lemma formatFailedLaw_occurs (r : LawResult) :
    r.law.data <:+: (formatFailedLaw r).data ∧
    r.description.data <:+: (formatFailedLaw r).data := by
  rcases hre : r.error with _ | e
  · constructor
    · exact str_infix_of r.law (formatFailedLaw r) "❌ "
        (": " ++ r.description)
        (by simp [formatFailedLaw, hre, String.data_append, List.append_assoc])
    · exact str_infix_of r.description (formatFailedLaw r)
        ("❌ " ++ r.law ++ ": ") ""
        (by simp [formatFailedLaw, hre, String.data_append, List.append_assoc])
  · constructor
    · exact str_infix_of r.law (formatFailedLaw r) "❌ "
        (": " ++ r.description ++ ("\n   Error: " ++ e))
        (by simp [formatFailedLaw, hre, String.data_append, List.append_assoc])
    · exact str_infix_of r.description (formatFailedLaw r)
        ("❌ " ++ r.law ++ ": ") ("\n   Error: " ++ e)
        (by simp [formatFailedLaw, hre, String.data_append, List.append_assoc])

lemma infix_joinLines (x : String) :
    ∀ l : List String, x ∈ l → x.data <:+: (joinLines l).data := by
  intro l
  induction l with
  | nil => intro hx; cases hx
  | cons a as ih =>
    intro hx
    cases as with
    | nil =>
      have hxa : x = a := by simpa using hx
      subst hxa
      exact List.infix_refl _
    | cons b bs =>
      rcases List.mem_cons.mp hx with h | h
      · subst h
        exact str_infix_of x (joinLines (x :: b :: bs)) ""
          ("\n" ++ joinLines (b :: bs))
          (by simp [joinLines, String.data_append, List.append_assoc])
      · obtain ⟨s, t, hst⟩ := ih h
        refine ⟨(a ++ "\n").data ++ s, t, ?_⟩
        have hdata : (joinLines (a :: b :: bs)).data =
            (a ++ "\n").data ++ (joinLines (b :: bs)).data := by
          simp [joinLines, String.data_append, List.append_assoc]
        rw [hdata, ← hst]
        simp [List.append_assoc]

set_option maxRecDepth 4000 in
lemma joinLines_infix_message (failed : List LawResult) (pc tc : Nat) :
    (joinLines (failed.map formatFailedLaw)).data <:+:
      (lawViolationMessage failed pc tc).data := by
  refine str_infix_of _ _
    ("\n🚨 CATEGORY THEORY LAW VIOLATIONS DETECTED 🚨\n\n" ++
      toString failed.length ++ " of 12 laws failed verification:\n\n")
    ("\n\nMathematical guarantees cannot be provided. Please fix the violations before using this domain specification.\n\nPassed: " ++
      toString pc ++ "/" ++ toString tc ++ " laws\n")
    ?_
  simp [lawViolationMessage, String.data_append, List.append_assoc]

/-- C3: `verifyAllLaws` always yields exactly twelve results;
`allPassed` holds iff every result passed; `enforceLaws` returns normally
iff `allPassed`, and otherwise throws one aggregated message whose text
contains every failing law name and description. -/
theorem verifyAllLaws_suite_and_enforceLaws
    {Raw Domain Command Event State View Answer : Type}
    (L : DomainLaws Raw Domain Command Event State View Answer) (t : Nat) :
    (verifyAllLaws L t).results.length = 12 ∧
    ((verifyAllLaws L t).allPassed = true ↔
      ∀ r ∈ (verifyAllLaws L t).results, r.passed = true) ∧
    (enforceLaws L t = .ok () ↔ (verifyAllLaws L t).allPassed = true) ∧
    ((verifyAllLaws L t).allPassed = false →
      ∃ msg, enforceLaws L t = .error msg ∧
        ∀ r ∈ (verifyAllLaws L t).results, r.passed = false →
          r.law.data <:+: msg.data ∧ r.description.data <:+: msg.data) := by
  refine ⟨rfl, ?_, ?_, ?_⟩
  · show ((((verifyAllLaws L t).results.filter (fun r => r.passed)).length ==
      (verifyAllLaws L t).results.length) = true ↔ _)
    rw [beq_iff_eq]
    exact filter_length_eq_iff _ _
  · by_cases h : (verifyAllLaws L t).allPassed <;> simp [enforceLaws, h]
  · intro h
    refine ⟨lawViolationMessage
      ((verifyAllLaws L t).results.filter (fun r => !r.passed))
      (verifyAllLaws L t).passedCount (verifyAllLaws L t).totalCount,
      by simp [enforceLaws, h], ?_⟩
    intro r hr hpr
    have hmem : r ∈ (verifyAllLaws L t).results.filter (fun r => !r.passed) :=
      List.mem_filter.mpr ⟨hr, by simp [hpr]⟩
    have hmap : formatFailedLaw r ∈
        ((verifyAllLaws L t).results.filter (fun r => !r.passed)).map
          formatFailedLaw :=
      List.mem_map_of_mem _ hmem
    have hjoin := infix_joinLines (formatFailedLaw r) _ hmap
    have hmsg := joinLines_infix_message
      ((verifyAllLaws L t).results.filter (fun r => !r.passed))
      (verifyAllLaws L t).passedCount (verifyAllLaws L t).totalCount
    exact ⟨((formatFailedLaw_occurs r).1.trans hjoin).trans hmsg,
           ((formatFailedLaw_occurs r).2.trans hjoin).trans hmsg⟩

/-- A domain whose `evolve` reads the hidden call index (the embedding of a
wall-clock read) into the state; every other function is pure. -/
def nondetEvolveLaws : DomainLaws Unit Unit Unit Unit Nat Nat Nat where
  normalize := fun _ _ => ()
  validate := fun _ _ => true
  decide := fun _ _ _ => []
  evolve := fun t _ _ => t
  project := fun _ v _ => v
  queries := fun _ v => v
  deriveView := fun _ s => s
  initialState := 0
  initialView := 0
  puritySamples := [[()]]
  cqrsSamples := []
  replaySamples := []
  idemSamples := []
  jsonState := toString
  jsonView := toString
  withTestId := fun _ e => e

theorem verifyAllLaws_suite_and_enforceLaws_witness :
    (verifyAllLaws nondetEvolveLaws 0).allPassed = false ∧
    (∃ msg, enforceLaws nondetEvolveLaws 0 = .error msg ∧
      ∀ r ∈ (verifyAllLaws nondetEvolveLaws 0).results, r.passed = false →
        r.law.data <:+: msg.data ∧ r.description.data <:+: msg.data) :=
  ⟨by decide,
   (verifyAllLaws_suite_and_enforceLaws nondetEvolveLaws 0).2.2.2 (by decide)⟩

/-- C4: law checks 10, 11 and 12 are constant functions: they return
`passed := true` for every domain and every call index, without drawing a
single generated value or evaluating any domain function. -/
theorem stub_law_checks_constant_true
    {Raw Domain Command Event State View Answer : Type}
    (L : DomainLaws Raw Domain Command Event State View Answer) (t : Nat) :
    verifyMonoidalAggregation L t =
      (⟨"10. Monoidal Aggregation", true, none,
        "Aggregations are associative and have identity"⟩, t) ∧
    verifyPullbackCorrectness L t =
      (⟨"11. Pullback Correctness", true, none,
        "Joins return exactly key-matching pairs"⟩, t) ∧
    verifyPushoutSchemaEvolution L t =
      (⟨"12. Pushout Schema Evolution", true, none,
        "Schema evolution preserves old consumer behavior"⟩, t) :=
  ⟨rfl, rfl, rfl⟩

/-- A counter domain with pure `evolve`/`project` but a `decide` embedding
the current call index (wall clock) into the produced event content: two
calls with the same state and command return different events. -/
def counterLaws : DomainLaws Unit Unit Nat Nat Nat Nat Nat where
  normalize := fun _ _ => ()
  validate := fun _ _ => true
  decide := fun t _ _ => [t]
  evolve := fun _ s e => s + e
  project := fun _ v e => v + e
  queries := fun _ v => v
  deriveView := fun _ s => s
  initialState := 0
  initialView := 0
  puritySamples := [[1, 2], [3]]
  cqrsSamples := [[1]]
  replaySamples := [([1], [2])]
  idemSamples := [[1, 2]]
  jsonState := toString
  jsonView := toString
  withTestId := fun _ e => e

/-- C5 counterexample: `counterLaws.decide` is non-deterministic (its two
calls on the same state and command differ) while all other functions are
pure and unchanged, yet the verification suite passes in full and
`enforceLaws` returns normally — Law 1 is not reported, contradicting the
claim that such a domain fails verification. -/
theorem nondet_decide_not_detected :
    counterLaws.decide 0 0 0 ≠ counterLaws.decide 1 0 0 ∧
    (verifyAllLaws counterLaws 0).allPassed = true ∧
    enforceLaws counterLaws 0 = .ok () ∧
    ∀ r ∈ (verifyAllLaws counterLaws 0).results, r.passed = true :=
  ⟨by decide, by decide, rfl, by decide⟩

/-- C5 amended: the verification suite is independent of `decide` — no law
check ever invokes it — so a non-deterministic `decide` alone can never
make `verifyLaws` fail or report Law 1; only non-determinism observable
through `evolve`/`project` is detected. -/
theorem verifyAllLaws_independent_of_decide
    {Raw Domain Command Event State View Answer : Type}
    (L : DomainLaws Raw Domain Command Event State View Answer)
    (d : Nat → State → Command → List Event) (t : Nat) :
    verifyAllLaws { L with decide := d } t = verifyAllLaws L t ∧
    enforceLaws { L with decide := d } t = enforceLaws L t :=
  ⟨rfl, rfl⟩

end CatSys
